import Mathlib

/-!
# goki/grows, package `tomls`: `OpenFromPaths`

A shallow embedding of `tomls/tomls.go`.  The package is an adapter: it wraps the
TOML decoder so that it has the standard `Decode(v) error` signature and forwards
readers and file names to the generic helpers of package `grows`.

The only function with control flow of its own is `OpenFromPaths`.  Its
collaborators live outside the file:

* `filepath.Join`, `dirs.FileExists`, `os.Open` and `toml.Decoder.Decode` are
  taken as parameters (the fields of `Env`);
* `dirs.FindFilesOnPaths` and `grows.Read` are modelled from their contracts.

Go code acts on the world; the embedding makes this explicit.  Every function
returns the error value, the state of the destination object after the call and
the list of effects it performed, in program order.
-/

namespace Tomls

/-- Go `error` values as a caller observes them: the dynamic type and its payload. -/
inductive GoError where
  /-- Value of `errors.New` and of `fmt.Errorf` without a wrapping verb. -/
  | errorString (msg : String)
  /-- Value of type `*fs.PathError`, the error type of package `os`. -/
  | pathError (op path msg : String)
  /-- Value of type `toml.ParseError`, the error type of the TOML parser. -/
  | tomlError (msg : String)
  deriving DecidableEq, Repr

/-- An open `*os.File`: the name it was opened under and the bytes it yields. -/
structure File where
  name : String
  data : String
  deriving DecidableEq, Repr

/-- Value of `bufio.NewReader(fp)`: a reader over the stream of an open file. -/
structure Reader where
  src : File
  deriving DecidableEq, Repr

/-- The `toml.MetaData` that the TOML decoder returns beside its error. -/
structure MetaData where
  keys : List String
  deriving DecidableEq, Repr

/-- Effects that the package performs, in the order of the trace. -/
inductive Event (Obj : Type) where
  /-- Call of `dirs.FindFilesOnPaths(paths, file)`. -/
  | findFiles (paths : List String) (file : String)
  /-- Call of `log.Println(err)`. -/
  | logPrintln (e : GoError)
  /-- Call of `os.Open(name)`. -/
  | osOpen (name : String)
  /-- Call of `toml.NewDecoder(r)`. -/
  | newDecoder (r : Reader)
  /-- Call of `(*toml.Decoder).Decode(v)` on the decoder built over `r`,
  with the destination in state `v`. -/
  | tomlDecode (r : Reader) (v : Obj)
  /-- Call of `fp.Close()`; `none` is the nil `*os.File`. -/
  | close (fp : Option File)
  deriving DecidableEq, Repr

/-- Outcome of a call: the returned `error` (`none` is nil), the state of the
destination object after the call, and the effects performed. -/
structure Result (Obj : Type) where
  err : Option GoError
  obj : Obj
  trace : List (Event Obj)
  deriving DecidableEq, Repr

/-- The collaborators from outside the package.

* `filepathJoin` is `filepath.Join(path, file)`;
* `fileExists` is the existence test of `dirs.FileExists` (a stat);
* `osOpen` is `os.Open`: an open file, or the error and a nil file;
* `tomlDecode` is `(*toml.Decoder).Decode(v)` for the decoder built over a
  reader: the state it leaves the destination in, the metadata and the error.

`fileExists` and `osOpen` are independent: a file may exist and fail to open. -/
structure Env (Obj : Type) where
  filepathJoin : String → String → String
  fileExists : String → Bool
  osOpen : String → Except GoError File
  tomlDecode : Reader → Obj → Obj × MetaData × Option GoError

end Tomls

namespace Dirs

open Tomls

/-- Modelled from the spec: `dirs.FindFilesOnPaths` (package `goki.dev/glop/dirs`)
is not among the sources.  Spec §4.1 steps 1 and 2 and §6: the directories are
tested in order, each for a file named `file`; a directory that contains it
yields its directory-joined path.  The result lists these paths in the order of
`paths`, so that its first element is the path in the earliest-listed directory
that contains the file. -/
def FindFilesOnPaths {Obj : Type} (env : Env Obj) (paths : List String) (file : String) :
    List String :=
  (paths.map (fun path => env.filepathJoin path file)).filter env.fileExists

end Dirs

namespace Grows

open Tomls

/-- The `grows.Decoder` interface: one method `Decode(v any) error`. -/
abbrev Decoder (Obj : Type) := Obj → Result Obj

/-- The `grows.DecoderFunc` type: builds a decoder over a reader. -/
abbrev DecoderFunc (Obj : Type) := Reader → Decoder Obj × List (Event Obj)

/-- Modelled from the spec: `grows.Read` (root package of this repository) is not
among the sources.  Spec §4.1 step 5: construct a decoder over the stream via the
decoder factory and invoke it once against the destination; the decoder's
failure is the failure of the call. -/
def Read {Obj : Type} (v : Obj) (reader : Reader) (f : DecoderFunc Obj) : Result Obj :=
  let (d, t) := f reader
  let r := d v
  { err := r.err, obj := r.obj, trace := t ++ r.trace }

end Grows

namespace Tomls

/-- The type `Decoder`: a struct that embeds a `*toml.Decoder`.  The embedded
decoder is identified by the reader it was built over. -/
structure Decoder where
  tomlDecoder : Reader
  deriving DecidableEq, Repr

/-- The method `(d *Decoder) Decode(v any) error`:
`_, err := d.Decoder.Decode(v); return err`. -/
def Decoder.Decode {Obj : Type} (env : Env Obj) (d : Decoder) (v : Obj) : Result Obj :=
  let (v', _, err) := env.tomlDecode d.tomlDecoder v
  { err := err, obj := v', trace := [Event.tomlDecode d.tomlDecoder v] }

/-- The function `NewDecoder(r io.Reader) grows.Decoder`:
`return &Decoder{toml.NewDecoder(r)}`. -/
def NewDecoder {Obj : Type} (env : Env Obj) : Grows.DecoderFunc Obj :=
  fun r => ((Decoder.mk r).Decode env, [Event.newDecoder r])

/-- The function `Read(v any, reader io.Reader) error`:
`return grows.Read(v, reader, NewDecoder)`. -/
def Read {Obj : Type} (env : Env Obj) (v : Obj) (reader : Reader) : Result Obj :=
  Grows.Read v reader (NewDecoder env)

/-- The error that `OpenFromPaths` builds with `fmt.Errorf` when no file is found. -/
def errNoFilesFound : GoError :=
  GoError.errorString "OpenFromPaths: No files found"

/-- The function `OpenFromPaths(obj any, file string, paths []string) error`.

```go
filenames := dirs.FindFilesOnPaths(paths, file)
if len(filenames) == 0 {
	err := fmt.Errorf("OpenFromPaths: No files found")
	log.Println(err)
	return err
}
fp, err := os.Open(filenames[0])
defer fp.Close()
if err != nil {
	log.Println(err)
	return err
}
return Read(obj, bufio.NewReader(fp))
```

The `defer` statement is executed before `err` is tested, so the deferred
`fp.Close()` runs when the function returns on both branches after it; where
the open failed, `fp` is nil. -/
def OpenFromPaths {Obj : Type} (env : Env Obj) (obj : Obj) (file : String)
    (paths : List String) : Result Obj :=
  let filenames := Dirs.FindFilesOnPaths env paths file
  let searched : List (Event Obj) := [Event.findFiles paths file]
  match filenames with
  | [] =>
    let err := errNoFilesFound
    { err := some err, obj := obj, trace := searched ++ [Event.logPrintln err] }
  | first :: _ =>
    let opened := env.osOpen first
    let fp : Option File := opened.toOption
    let deferred : List (Event Obj) := [Event.close fp]
    match opened with
    | Except.error err =>
      { err := some err, obj := obj,
        trace := searched ++ [Event.osOpen first, Event.logPrintln err] ++ deferred }
    | Except.ok f =>
      let r := Read env obj (Reader.mk f)
      { err := r.err, obj := r.obj,
        trace := searched ++ [Event.osOpen first] ++ r.trace ++ deferred }

end Tomls

/-! ## Sample collaborators

An in-memory file system and a small decoder for one destination type.  They are
instances of `Env`, used to evaluate the definitions on concrete inputs. -/

namespace Demo

open Tomls

/-- A destination type: `struct { Name string; Port int }`. -/
structure Config where
  name : String
  port : Nat
  deriving DecidableEq, Repr

/-- A value of the sample configuration language. -/
inductive Value where
  | str (s : String)
  | int (n : Nat)
  deriving DecidableEq, Repr

/-- Splits a document into its lines. -/
def splitLines : List Char → List (List Char)
  | [] => [[]]
  | c :: cs =>
    match splitLines cs with
    | [] => [[c]]
    | l :: ls => if c = '\n' then [] :: l :: ls else (c :: l) :: ls

/-- Parses a value: a quoted string or a decimal number. -/
def parseValue (cs : List Char) : Option Value :=
  match cs with
  | '"' :: rest =>
    if rest.getLast? = some '"' then some (Value.str (String.mk rest.dropLast)) else none
  | _ =>
    if cs ≠ [] ∧ cs.all Char.isDigit then
      some (Value.int (cs.foldl (fun n c => 10 * n + (c.toNat - '0'.toNat)) 0))
    else none

/-- Parses a line of the form `key = value`. -/
def parseLine (cs : List Char) : Option (String × Value) :=
  let key := cs.takeWhile (fun c => c ≠ ' ')
  match cs.dropWhile (fun c => c ≠ ' ') with
  | ' ' :: '=' :: ' ' :: rest => (parseValue rest).map (fun v => (String.mk key, v))
  | _ => none

/-- Parses a whole document; blank lines are skipped. -/
def parseDoc : List (List Char) → Option (List (String × Value))
  | [] => some []
  | l :: ls =>
    if l = [] then parseDoc ls
    else
      match parseLine l, parseDoc ls with
      | some kv, some kvs => some (kv :: kvs)
      | _, _ => none

/-- Stores one key of the document in the destination; a key that the destination
has no field for is skipped; a value of the wrong type is an error, built with
`fmt.Errorf` as the not-found error of `OpenFromPaths` is. -/
def assignField (v : Config) (key : String) (val : Value) : Except GoError Config :=
  if key = "name" then
    match val with
    | Value.str s => Except.ok { v with name := s }
    | Value.int _ => Except.error (GoError.errorString
        "toml: (last key \"name\"): incompatible types: TOML value has type int64; destination has type string")
  else if key = "port" then
    match val with
    | Value.int n => Except.ok { v with port := n }
    | Value.str _ => Except.error (GoError.errorString
        "toml: (last key \"port\"): incompatible types: TOML value has type string; destination has type integer")
  else Except.ok v

/-- Stores the keys of a parsed document in the destination, one after the other,
and stops at the first key that fails. -/
def unify : List (String × Value) → Config → List String → Config × MetaData × Option GoError
  | [], v, keys => (v, MetaData.mk keys, none)
  | (key, val) :: kvs, v, keys =>
    match assignField v key val with
    | Except.error e => (v, MetaData.mk keys, some e)
    | Except.ok v' => unify kvs v' (keys ++ [key])

/-- A decoder in the manner of reflection-based decoders: the document is parsed
as a whole, then its keys are stored in the destination one by one. -/
def decode (r : Reader) (v : Config) : Config × MetaData × Option GoError :=
  match parseDoc (splitLines r.src.data.toList) with
  | none => (v, MetaData.mk [], some (GoError.tomlError "toml: syntax error"))
  | some kvs => unify kvs v []

/-- An in-memory file system.  A listed path exists; it opens with the listed
contents or fails with the listed error.  A path that is not listed does not
exist. -/
def memEnv (files : List (String × Except GoError String)) : Env Config where
  filepathJoin := fun path file => path ++ "/" ++ file
  fileExists := fun name => (files.lookup name).isSome
  osOpen := fun name =>
    match files.lookup name with
    | some (Except.ok data) => Except.ok (File.mk name data)
    | some (Except.error e) => Except.error e
    | none => Except.error (GoError.pathError "open" name "no such file or directory")
  tomlDecode := decode

/-- The destination before a call. -/
def cfg0 : Config := { name := "", port := 0 }

end Demo

/-! ## Stages of a call -/

namespace Tomls

/-- The stages at which a call of `OpenFromPaths` can fail. -/
inductive Stage where
  /-- The path search returned no file name. -/
  | search
  /-- The open of the first file name failed. -/
  | openFile
  /-- The decoder returned an error. -/
  | decode
  deriving DecidableEq, Repr

/-- Recognises a call of `os.Open`. -/
def Event.isOsOpen {Obj : Type} : Event Obj → Bool
  | Event.osOpen _ => true
  | _ => false

/-- Recognises a call of the wrapped TOML decoder. -/
def Event.isTomlDecode {Obj : Type} : Event Obj → Bool
  | Event.tomlDecode _ _ => true
  | _ => false

/-- The stage that a failing call reached, read off its effects: it decoded, or
it opened without decoding, or it did neither. -/
def failedStage {Obj : Type} (trace : List (Event Obj)) : Stage :=
  if trace.any Event.isTomlDecode then Stage.decode
  else if trace.any Event.isOsOpen then Stage.openFile
  else Stage.search

/-- A classification of errors by stage, by value and not by type: the not-found
error is told by its text, a path error belongs to the open, every other error
to the decode. -/
def stageOfError (e : GoError) : Stage :=
  if e = errNoFilesFound then Stage.search
  else
    match e with
    | GoError.pathError _ _ _ => Stage.openFile
    | _ => Stage.decode

end Tomls

/-! ## Sample worlds -/

namespace Demo

open Tomls

/-- Only `/usr/local/etc/app/config.toml` exists; it holds `name = "svc"`. -/
def scenarioEnv : Env Config :=
  memEnv [("/usr/local/etc/app/config.toml", Except.ok "name = \"svc\"")]

/-- Both directories hold a `config.toml`; the contents of the second are `second`. -/
def twoEnv (second : String) : Env Config :=
  memEnv [("/etc/app/config.toml", Except.ok "name = \"first\"\nport = 1"),
          ("/usr/local/etc/app/config.toml", Except.ok second)]

/-- The file `/etc/app/config.toml` gives `port` a string: the document is well
formed and its second key does not fit the destination. -/
def mismatchEnv : Env Config :=
  memEnv [("/etc/app/config.toml", Except.ok "name = \"svc\"\nport = \"http\"")]

/-- The error of an open that is refused. -/
def errDenied : GoError :=
  GoError.pathError "open" "/etc/app/config.toml" "permission denied"

/-- The file `/etc/app/config.toml` exists and the process may not read it. -/
def deniedEnv : Env Config :=
  memEnv [("/etc/app/config.toml", Except.error errDenied)]

/-- The error of an open of a file that is not there. -/
def errGone : GoError :=
  GoError.pathError "open" "/etc/app/extra.toml" "no such file or directory"

/-- The file `/etc/app/extra.toml` is there when the search tests for it and gone
when it is opened. -/
def goneEnv : Env Config :=
  memEnv [("/etc/app/extra.toml", Except.error errGone)]

/-- The file `/etc/app/config.toml` opens.  The destination has a field whose
text unmarshaller opens the file that the field names; the document names
`extra.toml`, which is not there, and the decoder returns the error of that
open. -/
def includeEnv : Env Config where
  filepathJoin := fun path file => path ++ "/" ++ file
  fileExists := fun name => name = "/etc/app/config.toml"
  osOpen := fun name =>
    if name = "/etc/app/config.toml" then
      Except.ok (File.mk name "include = \"extra.toml\"")
    else Except.error (GoError.pathError "open" name "no such file or directory")
  tomlDecode := fun _ v => (v, MetaData.mk [], some errGone)

end Demo

/-! ## The three paths of `OpenFromPaths` -/

namespace Dirs

open Tomls

/-- No listed directory contains the file: the search returns no file name. -/
theorem FindFilesOnPaths_eq_nil {Obj : Type} (env : Env Obj) (paths : List String)
    (file : String)
    (h : ∀ p ∈ paths, env.fileExists (env.filepathJoin p file) = false) :
    FindFilesOnPaths env paths file = [] := by
  unfold FindFilesOnPaths
  rw [List.filter_eq_nil_iff]
  intro a ha
  obtain ⟨p, hp, rfl⟩ := List.mem_map.mp ha
  simp [h p hp]

/-- The search result starts with the path in the earliest-listed directory that
contains the file. -/
theorem FindFilesOnPaths_first {Obj : Type} (env : Env Obj) (file : String)
    (pre post : List String) (dir : String)
    (hpre : ∀ p ∈ pre, env.fileExists (env.filepathJoin p file) = false)
    (hdir : env.fileExists (env.filepathJoin dir file) = true) :
    FindFilesOnPaths env (pre ++ dir :: post) file
      = env.filepathJoin dir file :: FindFilesOnPaths env post file := by
  have hnil := FindFilesOnPaths_eq_nil env pre file hpre
  unfold FindFilesOnPaths at hnil ⊢
  rw [List.map_append, List.filter_append, hnil, List.map_cons, List.filter_cons_of_pos hdir]
  rfl

/-- The search consults the file system through the join and the existence test only. -/
theorem FindFilesOnPaths_congr {Obj : Type} (env env' : Env Obj) (paths : List String)
    (file : String) (hjoin : env'.filepathJoin = env.filepathJoin)
    (hexists : env'.fileExists = env.fileExists) :
    FindFilesOnPaths env' paths file = FindFilesOnPaths env paths file := by
  unfold FindFilesOnPaths
  rw [hjoin, hexists]

end Dirs

namespace Tomls

/-- The path on which the search returns no file name. -/
theorem OpenFromPaths_of_none {Obj : Type} (env : Env Obj) (obj : Obj) (file : String)
    (paths : List String) (hfind : Dirs.FindFilesOnPaths env paths file = []) :
    OpenFromPaths env obj file paths
      = { err := some errNoFilesFound, obj := obj,
          trace := [Event.findFiles paths file, Event.logPrintln errNoFilesFound] } := by
  simp [OpenFromPaths, hfind]

/-- The path on which the open of the first file name fails. -/
theorem OpenFromPaths_of_open_error {Obj : Type} (env : Env Obj) (obj : Obj)
    (file : String) (paths : List String) (first : String) (rest : List String)
    (e : GoError) (hfind : Dirs.FindFilesOnPaths env paths file = first :: rest)
    (hopen : env.osOpen first = Except.error e) :
    OpenFromPaths env obj file paths
      = { err := some e, obj := obj,
          trace := [Event.findFiles paths file, Event.osOpen first, Event.logPrintln e,
                    Event.close none] } := by
  simp [OpenFromPaths, hfind, hopen, Except.toOption]

/-- The path on which the open of the first file name succeeds. -/
theorem OpenFromPaths_of_open_ok {Obj : Type} (env : Env Obj) (obj : Obj)
    (file : String) (paths : List String) (first : String) (rest : List String)
    (f : File) (hfind : Dirs.FindFilesOnPaths env paths file = first :: rest)
    (hopen : env.osOpen first = Except.ok f) :
    OpenFromPaths env obj file paths
      = { err := (env.tomlDecode (Reader.mk f) obj).2.2,
          obj := (env.tomlDecode (Reader.mk f) obj).1,
          trace := [Event.findFiles paths file, Event.osOpen first,
                    Event.newDecoder (Reader.mk f), Event.tomlDecode (Reader.mk f) obj,
                    Event.close (some f)] } := by
  simp [OpenFromPaths, hfind, hopen, Except.toOption, Read, Grows.Read, NewDecoder,
    Decoder.Decode]

/-- Every call takes one of the three paths. -/
theorem OpenFromPaths_cases {Obj : Type} (env : Env Obj) (file : String)
    (paths : List String) :
    Dirs.FindFilesOnPaths env paths file = []
    ∨ (∃ first rest e, Dirs.FindFilesOnPaths env paths file = first :: rest
        ∧ env.osOpen first = Except.error e)
    ∨ (∃ first rest f, Dirs.FindFilesOnPaths env paths file = first :: rest
        ∧ env.osOpen first = Except.ok f) := by
  cases hfind : Dirs.FindFilesOnPaths env paths file with
  | nil => exact Or.inl rfl
  | cons first rest =>
    cases hopen : env.osOpen first with
    | error e => exact Or.inr (Or.inl ⟨first, rest, e, rfl, hopen⟩)
    | ok f => exact Or.inr (Or.inr ⟨first, rest, f, rfl, hopen⟩)

end Tomls

/-! ## Properties of `OpenFromPaths` -/

namespace Tomls

/-- C1. First match wins.  Let `dir` be the earliest-listed directory that
contains the file (no directory listed before it does; directories listed after
it may).  Then the first element of the path-search result is the path of the
file in `dir`; the only open that `OpenFromPaths` performs is of that path; the
only stream it decodes is the one that open returned; and the whole outcome
(error, destination, effects) is the same in every world `env'` that agrees with
`env` on this one file, whatever the other files, those in later-listed
directories among them, open as. -/
theorem OpenFromPaths_first_match_wins {Obj : Type} (env env' : Env Obj) (obj : Obj)
    (file : String) (pre post : List String) (dir : String)
    (hpre : ∀ p ∈ pre, env.fileExists (env.filepathJoin p file) = false)
    (hdir : env.fileExists (env.filepathJoin dir file) = true)
    (hjoin : env'.filepathJoin = env.filepathJoin)
    (hexists : env'.fileExists = env.fileExists)
    (hdecode : env'.tomlDecode = env.tomlDecode)
    (hopen : env'.osOpen (env.filepathJoin dir file) = env.osOpen (env.filepathJoin dir file)) :
    (Dirs.FindFilesOnPaths env (pre ++ dir :: post) file).head?
        = some (env.filepathJoin dir file)
    ∧ (∀ name, Event.osOpen name ∈ (OpenFromPaths env obj file (pre ++ dir :: post)).trace →
        name = env.filepathJoin dir file)
    ∧ (∀ r v, Event.tomlDecode r v ∈ (OpenFromPaths env obj file (pre ++ dir :: post)).trace →
        env.osOpen (env.filepathJoin dir file) = Except.ok r.src)
    ∧ OpenFromPaths env' obj file (pre ++ dir :: post)
        = OpenFromPaths env obj file (pre ++ dir :: post) := by
  have hfind := Dirs.FindFilesOnPaths_first env file pre post dir hpre hdir
  have hfind' : Dirs.FindFilesOnPaths env' (pre ++ dir :: post) file
      = env.filepathJoin dir file :: Dirs.FindFilesOnPaths env post file := by
    rw [Dirs.FindFilesOnPaths_congr env env' _ _ hjoin hexists, hfind]
  refine ⟨by rw [hfind]; rfl, ?_⟩
  cases hres : env.osOpen (env.filepathJoin dir file) with
  | error e =>
    rw [hres] at hopen
    rw [OpenFromPaths_of_open_error env obj file _ _ _ e hfind hres,
      OpenFromPaths_of_open_error env' obj file _ _ _ e hfind' hopen]
    simp
  | ok f =>
    rw [hres] at hopen
    rw [OpenFromPaths_of_open_ok env obj file _ _ _ f hfind hres,
      OpenFromPaths_of_open_ok env' obj file _ _ _ f hfind' hopen, hdecode]
    simp

/-- C2. When the search path list is empty or no listed directory contains the
file, the path search returns no file name, `OpenFromPaths` returns the
not-found error, the destination is unchanged, and the call performs no open,
builds no decoder and performs no decode. -/
theorem OpenFromPaths_not_found {Obj : Type} (env : Env Obj) (obj : Obj) (file : String)
    (paths : List String)
    (h : paths = [] ∨ ∀ p ∈ paths, env.fileExists (env.filepathJoin p file) = false) :
    Dirs.FindFilesOnPaths env paths file = []
    ∧ (OpenFromPaths env obj file paths).err = some errNoFilesFound
    ∧ (OpenFromPaths env obj file paths).obj = obj
    ∧ (∀ name, Event.osOpen name ∉ (OpenFromPaths env obj file paths).trace)
    ∧ (∀ r, Event.newDecoder r ∉ (OpenFromPaths env obj file paths).trace)
    ∧ (∀ r v, Event.tomlDecode r v ∉ (OpenFromPaths env obj file paths).trace) := by
  have hall : ∀ p ∈ paths, env.fileExists (env.filepathJoin p file) = false := by
    rcases h with h | h
    · subst h
      intro p hp
      cases hp
    · exact h
  have hfind := Dirs.FindFilesOnPaths_eq_nil env paths file hall
  rw [OpenFromPaths_of_none env obj file paths hfind]
  simp [hfind]

/-- C4. When exactly one listed directory contains the file, the file opens and
the decoder accepts its contents, `OpenFromPaths` returns no error and the
destination holds what decoding the contents of that file produced. -/
theorem OpenFromPaths_unique_match {Obj : Type} (env : Env Obj) (obj : Obj)
    (file : String) (pre post : List String) (dir : String) (f : File)
    (hpre : ∀ p ∈ pre, env.fileExists (env.filepathJoin p file) = false)
    (hpost : ∀ p ∈ post, env.fileExists (env.filepathJoin p file) = false)
    (hdir : env.fileExists (env.filepathJoin dir file) = true)
    (hopen : env.osOpen (env.filepathJoin dir file) = Except.ok f)
    (haccept : (env.tomlDecode (Reader.mk f) obj).2.2 = none) :
    Dirs.FindFilesOnPaths env (pre ++ dir :: post) file = [env.filepathJoin dir file]
    ∧ (OpenFromPaths env obj file (pre ++ dir :: post)).err = none
    ∧ (OpenFromPaths env obj file (pre ++ dir :: post)).obj
        = (env.tomlDecode (Reader.mk f) obj).1 := by
  have hfind := Dirs.FindFilesOnPaths_first env file pre post dir hpre hdir
  rw [Dirs.FindFilesOnPaths_eq_nil env post file hpost] at hfind
  rw [OpenFromPaths_of_open_ok env obj file _ _ _ f hfind hopen]
  exact ⟨hfind, haccept, rfl⟩

/-- C6. When a file is found and opening it fails, `OpenFromPaths` returns the
very error that the open reported, the destination is unchanged, no decoder is
built and no decode is performed. -/
theorem OpenFromPaths_open_failure {Obj : Type} (env : Env Obj) (obj : Obj)
    (file : String) (paths : List String) (first : String) (rest : List String)
    (e : GoError) (hfind : Dirs.FindFilesOnPaths env paths file = first :: rest)
    (hopen : env.osOpen first = Except.error e) :
    (OpenFromPaths env obj file paths).err = some e
    ∧ (OpenFromPaths env obj file paths).obj = obj
    ∧ (∀ r, Event.newDecoder r ∉ (OpenFromPaths env obj file paths).trace)
    ∧ (∀ r v, Event.tomlDecode r v ∉ (OpenFromPaths env obj file paths).trace) := by
  rw [OpenFromPaths_of_open_error env obj file paths first rest e hfind hopen]
  simp

/-- C7. When the open succeeds, the opened file is closed exactly once, and the
close is the last effect of the call, after the decode: the trace is some
effects without a close, among them the decode of the opened stream, followed by
the close of the opened file.  This holds for either outcome of the decode. -/
theorem OpenFromPaths_closes_once {Obj : Type} (env : Env Obj) (obj : Obj)
    (file : String) (paths : List String) (first : String) (rest : List String)
    (f : File) (hfind : Dirs.FindFilesOnPaths env paths file = first :: rest)
    (hopen : env.osOpen first = Except.ok f) :
    ∃ before : List (Event Obj),
      (OpenFromPaths env obj file paths).trace = before ++ [Event.close (some f)]
      ∧ (∀ fp, Event.close fp ∉ before)
      ∧ Event.tomlDecode (Reader.mk f) obj ∈ before := by
  rw [OpenFromPaths_of_open_ok env obj file paths first rest f hfind hopen]
  exact ⟨[Event.findFiles paths file, Event.osOpen first, Event.newDecoder (Reader.mk f),
    Event.tomlDecode (Reader.mk f) obj], rfl, by simp, by simp⟩

/-- C10. `Decoder.Decode` calls the wrapped decoder once, on `v`, returns the
error of that call (nil exactly when that call returned nil) and drops the
metadata; the destination is as the wrapped decoder left it.  When the open in
`OpenFromPaths` succeeds, one decoder is built, over the opened stream, and it
is invoked once, against the destination, whatever it returns. -/
theorem Decoder_Decode_adapts {Obj : Type} (env : Env Obj) (d : Decoder) (v obj : Obj)
    (file : String) (paths : List String) (first : String) (rest : List String)
    (f : File) (hfind : Dirs.FindFilesOnPaths env paths file = first :: rest)
    (hopen : env.osOpen first = Except.ok f) :
    (d.Decode env v).trace = [Event.tomlDecode d.tomlDecoder v]
    ∧ (d.Decode env v).err = (env.tomlDecode d.tomlDecoder v).2.2
    ∧ ((d.Decode env v).err = none ↔ (env.tomlDecode d.tomlDecoder v).2.2 = none)
    ∧ (d.Decode env v).obj = (env.tomlDecode d.tomlDecoder v).1
    ∧ (OpenFromPaths env obj file paths).trace
        = [Event.findFiles paths file, Event.osOpen first, Event.newDecoder (Reader.mk f),
           Event.tomlDecode (Reader.mk f) obj, Event.close (some f)]
    ∧ (OpenFromPaths env obj file paths).err = ((Decoder.mk (Reader.mk f)).Decode env obj).err
    ∧ (OpenFromPaths env obj file paths).obj = ((Decoder.mk (Reader.mk f)).Decode env obj).obj := by
  rw [OpenFromPaths_of_open_ok env obj file paths first rest f hfind hopen]
  simp [Decoder.Decode]

end Tomls

/-! ## Where the code differs from a typed, transactional loader -/

namespace Demo

open Tomls

/-- The errors of the sample decoder are classified as errors of the decode. -/
theorem unify_error (kvs : List (String × Value)) (v : Config) (keys : List String)
    (e : GoError) (h : (unify kvs v keys).2.2 = some e) : stageOfError e = Stage.decode := by
  induction kvs generalizing v keys with
  | nil => simp [unify] at h
  | cons kv kvs ih =>
    obtain ⟨key, val⟩ := kv
    unfold unify at h
    cases ha : assignField v key val with
    | error e' =>
      rw [ha] at h
      simp only [Option.some.injEq] at h
      subst h
      unfold assignField at ha
      split at ha
      · cases val <;> simp at ha
        subst ha
        rfl
      · split at ha
        · cases val <;> simp at ha
          subst ha
          rfl
        · simp at ha
    | ok v' =>
      rw [ha] at h
      exact ih _ _ h

/-- The errors of the sample decoder are classified as errors of the decode. -/
theorem decode_error (r : Reader) (v : Config) (e : GoError)
    (h : (decode r v).2.2 = some e) : stageOfError e = Stage.decode := by
  unfold decode at h
  split at h
  · simp only [Option.some.injEq] at h
    subst h
    rfl
  · exact unify_error _ _ _ _ h

end Demo

namespace Tomls

/-- C3, as the code has it.  When the matched file opens and the decoder
rejects its contents with `e`, `OpenFromPaths` returns `e` itself and the
destination is in the state the decoder left it in: it is as before the call
exactly when the decoder left it so.  On every call one of three holds: the
result is success and the destination holds what the decoder produced; the
result is a failure of the search or of the open and the destination is
unchanged; the result is the failure of the decoder and the destination is as
the decoder left it. -/
theorem OpenFromPaths_decode_failure {Obj : Type} (env : Env Obj) (obj : Obj)
    (file : String) (paths : List String) (first : String) (rest : List String)
    (f : File) (e : GoError)
    (hfind : Dirs.FindFilesOnPaths env paths file = first :: rest)
    (hopen : env.osOpen first = Except.ok f)
    (hreject : (env.tomlDecode (Reader.mk f) obj).2.2 = some e) :
    (OpenFromPaths env obj file paths).err = some e
    ∧ (OpenFromPaths env obj file paths).obj = (env.tomlDecode (Reader.mk f) obj).1
    ∧ ((OpenFromPaths env obj file paths).obj = obj
        ↔ (env.tomlDecode (Reader.mk f) obj).1 = obj)
    ∧ ∀ (o : Obj) (fl : String) (ps : List String),
        ((OpenFromPaths env o fl ps).err = none
          ∧ ∃ g, (env.tomlDecode (Reader.mk g) o).2.2 = none
              ∧ (OpenFromPaths env o fl ps).obj = (env.tomlDecode (Reader.mk g) o).1)
        ∨ ((OpenFromPaths env o fl ps).err ≠ none
          ∧ failedStage (OpenFromPaths env o fl ps).trace ≠ Stage.decode
          ∧ (OpenFromPaths env o fl ps).obj = o)
        ∨ ((OpenFromPaths env o fl ps).err ≠ none
          ∧ failedStage (OpenFromPaths env o fl ps).trace = Stage.decode
          ∧ ∃ g, (env.tomlDecode (Reader.mk g) o).2.2 = (OpenFromPaths env o fl ps).err
              ∧ (OpenFromPaths env o fl ps).obj = (env.tomlDecode (Reader.mk g) o).1) := by
  refine ⟨?_, ?_, ?_, ?_⟩
  · rw [OpenFromPaths_of_open_ok env obj file paths first rest f hfind hopen]
    exact hreject
  · rw [OpenFromPaths_of_open_ok env obj file paths first rest f hfind hopen]
  · rw [OpenFromPaths_of_open_ok env obj file paths first rest f hfind hopen]
  · intro o fl ps
    rcases OpenFromPaths_cases env fl ps with h | ⟨a, as, e', h, ho⟩ | ⟨a, as, g, h, ho⟩
    · rw [OpenFromPaths_of_none env o fl ps h]
      right
      left
      simp [failedStage, Event.isTomlDecode, Event.isOsOpen]
    · rw [OpenFromPaths_of_open_error env o fl ps a as e' h ho]
      right
      left
      simp [failedStage, Event.isTomlDecode, Event.isOsOpen]
    · rw [OpenFromPaths_of_open_ok env o fl ps a as g h ho]
      cases hd : (env.tomlDecode (Reader.mk g) o).2.2 with
      | none => exact Or.inl ⟨rfl, g, hd, rfl⟩
      | some e' =>
        right
        right
        refine ⟨by simp, by simp [failedStage, Event.isTomlDecode], g, hd, rfl⟩

/-- C5, as the code has it.  A failing call returns the error of the stage that
failed, as that stage reported it, neither wrapped nor tagged: the fixed error
`OpenFromPaths: No files found` of the search, the error of `os.Open`, or the
error of the decoder.  This holds of every failing call, in every world.
Where, besides, the errors of the collaborators are separated by stage
(`classify` sends the not-found error to the search, every error of `os.Open`
to the open and every error of the decoder to the decode), the returned error
alone gives the stage that failed. -/
theorem OpenFromPaths_error_stage {Obj : Type} (env : Env Obj) (obj : Obj)
    (file : String) (paths : List String) (e : GoError)
    (herr : (OpenFromPaths env obj file paths).err = some e) :
    ((failedStage (OpenFromPaths env obj file paths).trace = Stage.search
          ∧ e = errNoFilesFound)
      ∨ (failedStage (OpenFromPaths env obj file paths).trace = Stage.openFile
          ∧ ∃ first, (Dirs.FindFilesOnPaths env paths file).head? = some first
              ∧ env.osOpen first = Except.error e)
      ∨ (failedStage (OpenFromPaths env obj file paths).trace = Stage.decode
          ∧ ∃ first f, (Dirs.FindFilesOnPaths env paths file).head? = some first
              ∧ env.osOpen first = Except.ok f
              ∧ (env.tomlDecode (Reader.mk f) obj).2.2 = some e))
    ∧ ∀ classify : GoError → Stage,
        classify errNoFilesFound = Stage.search →
        (∀ name e', env.osOpen name = Except.error e' → classify e' = Stage.openFile) →
        (∀ r v e', (env.tomlDecode r v).2.2 = some e' → classify e' = Stage.decode) →
        classify e = failedStage (OpenFromPaths env obj file paths).trace := by
  rcases OpenFromPaths_cases env file paths with h | ⟨a, as, e', h, ho⟩ | ⟨a, as, g, h, ho⟩
  · rw [OpenFromPaths_of_none env obj file paths h] at herr ⊢
    simp only [Option.some.injEq] at herr
    subst herr
    have hs : failedStage [Event.findFiles paths file,
        (Event.logPrintln errNoFilesFound : Event Obj)] = Stage.search := by
      simp [failedStage, Event.isTomlDecode, Event.isOsOpen]
    rw [hs]
    exact ⟨Or.inl ⟨rfl, rfl⟩, fun _ hsearch _ _ => hsearch⟩
  · rw [OpenFromPaths_of_open_error env obj file paths a as e' h ho] at herr ⊢
    simp only [Option.some.injEq] at herr
    subst herr
    have hs : failedStage [Event.findFiles paths file, Event.osOpen a,
        Event.logPrintln e', (Event.close none : Event Obj)] = Stage.openFile := by
      simp [failedStage, Event.isTomlDecode, Event.isOsOpen]
    rw [hs]
    exact ⟨Or.inr (Or.inl ⟨rfl, a, by rw [h]; rfl, ho⟩), fun _ _ hopen _ => hopen a e' ho⟩
  · rw [OpenFromPaths_of_open_ok env obj file paths a as g h ho] at herr ⊢
    simp only at herr
    have hs : failedStage [Event.findFiles paths file, Event.osOpen a,
        Event.newDecoder (Reader.mk g), Event.tomlDecode (Reader.mk g) obj,
        (Event.close (some g) : Event Obj)] = Stage.decode := by
      simp [failedStage, Event.isTomlDecode]
    rw [hs]
    exact ⟨Or.inr (Or.inr ⟨rfl, a, g, by rw [h]; rfl, ho, herr⟩),
      fun _ _ _ hdecode => hdecode _ _ e herr⟩

/-- C8, what the code does.  The `defer fp.Close()` precedes the test of `err`:
on every call in which the open fails, the deferred close runs on the nil
handle, as the last effect of the call. -/
theorem OpenFromPaths_close_on_nil_handle {Obj : Type} (env : Env Obj) (obj : Obj)
    (file : String) (paths : List String) (first : String) (rest : List String)
    (e : GoError) (hfind : Dirs.FindFilesOnPaths env paths file = first :: rest)
    (hopen : env.osOpen first = Except.error e) :
    (OpenFromPaths env obj file paths).trace
      = [Event.findFiles paths file, Event.osOpen first, Event.logPrintln e,
         Event.close none] := by
  rw [OpenFromPaths_of_open_error env obj file paths first rest e hfind hopen]

end Tomls

/-! ## The theorems at concrete inputs -/

namespace Demo

open Tomls

/-- C1 at a concrete input: both directories hold a `config.toml`, the one in
`/etc/app` is decoded, and the outcome is the same for two different contents
of the one in `/usr/local/etc/app`. -/
theorem OpenFromPaths_first_match_wins_witness :
    (OpenFromPaths (twoEnv "name = \"second\"") cfg0 "config.toml"
        ["/etc/app", "/usr/local/etc/app"]).obj = { name := "first", port := 1 }
    ∧ OpenFromPaths (twoEnv "port = \"broken") cfg0 "config.toml"
          ([] ++ "/etc/app" :: ["/usr/local/etc/app"])
        = OpenFromPaths (twoEnv "name = \"second\"") cfg0 "config.toml"
          ([] ++ "/etc/app" :: ["/usr/local/etc/app"]) :=
  ⟨by decide,
   (OpenFromPaths_first_match_wins (twoEnv "name = \"second\"") (twoEnv "port = \"broken")
      cfg0 "config.toml" [] ["/usr/local/etc/app"] "/etc/app"
      (by intro p hp; cases hp) (by decide) rfl
      (by
        funext name
        cases h1 : name == "/etc/app/config.toml" <;>
          cases h2 : name == "/usr/local/etc/app/config.toml" <;>
          simp [twoEnv, memEnv, List.lookup, h1, h2])
      rfl rfl).2.2.2⟩

/-- C2 at a concrete input: the file system holds a file of another name. -/
theorem OpenFromPaths_not_found_witness :
    OpenFromPaths scenarioEnv cfg0 "settings.toml" ["/etc/app", "/usr/local/etc/app"]
        = { err := some errNoFilesFound, obj := cfg0,
            trace := [Event.findFiles ["/etc/app", "/usr/local/etc/app"] "settings.toml",
                      Event.logPrintln errNoFilesFound] }
    ∧ (OpenFromPaths scenarioEnv cfg0 "settings.toml"
        ["/etc/app", "/usr/local/etc/app"]).err = some errNoFilesFound :=
  ⟨by decide,
   (OpenFromPaths_not_found scenarioEnv cfg0 "settings.toml"
      ["/etc/app", "/usr/local/etc/app"] (Or.inr (by decide))).2.1⟩

/-- C4 at the scenario of the specification: the search paths are `/etc/app` and
`/usr/local/etc/app`, only `/usr/local/etc/app/config.toml` exists, it holds
`name = "svc"`; the call succeeds and the name of the destination is `svc`. -/
theorem OpenFromPaths_unique_match_witness :
    (OpenFromPaths scenarioEnv cfg0 "config.toml" ["/etc/app", "/usr/local/etc/app"]).obj.name
        = "svc"
    ∧ (OpenFromPaths scenarioEnv cfg0 "config.toml"
        (["/etc/app"] ++ "/usr/local/etc/app" :: [])).err = none :=
  ⟨by decide,
   (OpenFromPaths_unique_match scenarioEnv cfg0 "config.toml" ["/etc/app"] []
      "/usr/local/etc/app" (File.mk "/usr/local/etc/app/config.toml" "name = \"svc\"")
      (by decide) (by intro p hp; cases hp) (by decide) rfl (by decide)).2.1⟩

/-- C6 at a concrete input: the file exists and the process may not read it. -/
theorem OpenFromPaths_open_failure_witness :
    (OpenFromPaths deniedEnv cfg0 "config.toml" ["/etc/app"]).err = some errDenied
    ∧ (OpenFromPaths deniedEnv cfg0 "config.toml" ["/etc/app"]).obj = cfg0 :=
  ⟨(OpenFromPaths_open_failure deniedEnv cfg0 "config.toml" ["/etc/app"]
      "/etc/app/config.toml" [] errDenied (by decide) rfl).1,
   by decide⟩

/-- C7 at a concrete input, one on which the decoder fails. -/
theorem OpenFromPaths_closes_once_witness :
    ∃ before : List (Event Config),
      (OpenFromPaths mismatchEnv cfg0 "config.toml" ["/etc/app"]).trace
        = before ++ [Event.close (some (File.mk "/etc/app/config.toml"
            "name = \"svc\"\nport = \"http\""))]
      ∧ (∀ fp, Event.close fp ∉ before)
      ∧ Event.tomlDecode (Reader.mk (File.mk "/etc/app/config.toml"
            "name = \"svc\"\nport = \"http\"")) cfg0 ∈ before :=
  OpenFromPaths_closes_once mismatchEnv cfg0 "config.toml" ["/etc/app"]
    "/etc/app/config.toml" [] (File.mk "/etc/app/config.toml" "name = \"svc\"\nport = \"http\"")
    (by decide) rfl

/-- C10 at the scenario of the specification: one decoder over the opened
stream, one decode against the destination. -/
theorem Decoder_Decode_adapts_witness :
    (OpenFromPaths scenarioEnv cfg0 "config.toml" ["/etc/app", "/usr/local/etc/app"]).trace
      = [Event.findFiles ["/etc/app", "/usr/local/etc/app"] "config.toml",
         Event.osOpen "/usr/local/etc/app/config.toml",
         Event.newDecoder (Reader.mk (File.mk "/usr/local/etc/app/config.toml" "name = \"svc\"")),
         Event.tomlDecode (Reader.mk (File.mk "/usr/local/etc/app/config.toml" "name = \"svc\""))
           cfg0,
         Event.close (some (File.mk "/usr/local/etc/app/config.toml" "name = \"svc\""))] :=
  (Decoder_Decode_adapts scenarioEnv
    (Decoder.mk (Reader.mk (File.mk "/usr/local/etc/app/config.toml" "name = \"svc\""))) cfg0 cfg0
    "config.toml" ["/etc/app", "/usr/local/etc/app"] "/usr/local/etc/app/config.toml" []
    (File.mk "/usr/local/etc/app/config.toml" "name = \"svc\"") (by decide) rfl).2.2.2.2.1

/-- C3 fails as stated: the document is well formed, its first key is stored in
the destination, its second key does not fit; the call returns the error of the
decoder and the destination has changed. -/
theorem OpenFromPaths_destination_half_written :
    (OpenFromPaths mismatchEnv cfg0 "config.toml" ["/etc/app"]).err
        = some (GoError.errorString
            "toml: (last key \"port\"): incompatible types: TOML value has type string; destination has type integer")
    ∧ (OpenFromPaths mismatchEnv cfg0 "config.toml" ["/etc/app"]).obj
        = { name := "svc", port := 0 }
    ∧ (OpenFromPaths mismatchEnv cfg0 "config.toml" ["/etc/app"]).obj ≠ cfg0 := by
  decide

/-- C3, as the code has it, at the same input. -/
theorem OpenFromPaths_decode_failure_witness :
    (OpenFromPaths mismatchEnv cfg0 "config.toml" ["/etc/app"]).obj
      = (mismatchEnv.tomlDecode (Reader.mk (File.mk "/etc/app/config.toml"
          "name = \"svc\"\nport = \"http\"")) cfg0).1 :=
  (OpenFromPaths_decode_failure mismatchEnv cfg0 "config.toml" ["/etc/app"]
    "/etc/app/config.toml" [] (File.mk "/etc/app/config.toml" "name = \"svc\"\nport = \"http\"")
    (GoError.errorString
      "toml: (last key \"port\"): incompatible types: TOML value has type string; destination has type integer")
    (by decide) rfl (by decide)).2.1

/-- C5 fails as stated: one error value is returned by a call that failed at the
open and by a call that failed at the decode. -/
theorem OpenFromPaths_same_error_two_stages :
    (OpenFromPaths goneEnv cfg0 "extra.toml" ["/etc/app"]).err = some errGone
    ∧ failedStage (OpenFromPaths goneEnv cfg0 "extra.toml" ["/etc/app"]).trace
        = Stage.openFile
    ∧ (OpenFromPaths includeEnv cfg0 "config.toml" ["/etc/app"]).err = some errGone
    ∧ failedStage (OpenFromPaths includeEnv cfg0 "config.toml" ["/etc/app"]).trace
        = Stage.decode := by
  decide

/-- C5, as the code has it, at concrete inputs.  In the world in which the
decoder returns the error of an open, the returned error is the one the decoder
reported.  In the world of the refused open, the errors of the sample file
system are path errors, those of the sample decoder are neither path errors nor
the not-found error, and the value of the returned error gives the stage. -/
theorem OpenFromPaths_error_stage_witness :
    ((failedStage (OpenFromPaths includeEnv cfg0 "config.toml" ["/etc/app"]).trace
          = Stage.search ∧ errGone = errNoFilesFound)
      ∨ (failedStage (OpenFromPaths includeEnv cfg0 "config.toml" ["/etc/app"]).trace
          = Stage.openFile
          ∧ ∃ first, (Dirs.FindFilesOnPaths includeEnv ["/etc/app"] "config.toml").head?
                = some first
              ∧ includeEnv.osOpen first = Except.error errGone)
      ∨ (failedStage (OpenFromPaths includeEnv cfg0 "config.toml" ["/etc/app"]).trace
          = Stage.decode
          ∧ ∃ first f, (Dirs.FindFilesOnPaths includeEnv ["/etc/app"] "config.toml").head?
                = some first
              ∧ includeEnv.osOpen first = Except.ok f
              ∧ (includeEnv.tomlDecode (Reader.mk f) cfg0).2.2 = some errGone))
    ∧ stageOfError errDenied
        = failedStage (OpenFromPaths deniedEnv cfg0 "config.toml" ["/etc/app"]).trace :=
  ⟨(OpenFromPaths_error_stage includeEnv cfg0 "config.toml" ["/etc/app"] errGone
      (by decide)).1,
   (OpenFromPaths_error_stage deniedEnv cfg0 "config.toml" ["/etc/app"] errDenied
      (by decide)).2 stageOfError (by decide)
      (by
        intro name e' h
        cases h1 : name == "/etc/app/config.toml" <;>
          simp [deniedEnv, memEnv, List.lookup, h1] at h <;>
          subst h <;> rfl)
      (fun r v e' h => decode_error r v e' h)⟩

/-- C8 at the failing input: the open is refused and the call closes the nil
handle. -/
theorem OpenFromPaths_close_on_nil_handle_witness :
    (OpenFromPaths deniedEnv cfg0 "config.toml" ["/etc/app"]).trace
      = [Event.findFiles ["/etc/app"] "config.toml", Event.osOpen "/etc/app/config.toml",
         Event.logPrintln errDenied, Event.close none] :=
  OpenFromPaths_close_on_nil_handle deniedEnv cfg0 "config.toml" ["/etc/app"]
    "/etc/app/config.toml" [] errDenied (by decide) rfl

end Demo
